import Mathlib

set_option maxHeartbeats 1000000

namespace ScheduleNotify

/-- Characters of a JavaScript string, modelled as the list of its Unicode scalar values. -/
abbrev Str := List Char

/-- Boolean test that the first list is an initial segment of the second.
Mirrors the prefix test underlying the JavaScript behaviour of
String.prototype.includes, which all intent-rule matching in
src/lib/calendar.ts (parseAIResponse) relies on. -/
def isPrefixB : Str → Str → Bool
  | [], _ => true
  | _ :: _, [] => false
  | a :: as, b :: bs => a == b && isPrefixB as bs

/-- Model of JavaScript input.includes(needle): substring containment on the
raw text, case-sensitive, with no normalisation. -/
def containsB : Str → Str → Bool
  | [], n => isPrefixB n []
  | c :: t, n => isPrefixB n (c :: t) || containsB t n

/-- Decimal digit character, as used by JavaScript number-to-string rendering. -/
def digitChar (n : Nat) : Char := Char.ofNat (48 + n)

/-- Worker for natDigits, structurally recursive on a fuel argument so that it
reduces definitionally; any fuel at least the number being rendered suffices,
and the fuel-exhausted arm is never reached from natDigits. -/
def natDigitsAux : Nat → Nat → Str → Str
  | 0, n, acc => digitChar n :: acc
  | fuel + 1, n, acc =>
    if n < 10 then digitChar n :: acc
    else natDigitsAux fuel (n / 10) (digitChar (n % 10) :: acc)

/-- Decimal rendering of a natural number, as produced by JavaScript template
interpolation of an integer (array length, month number, day number). -/
def natDigits (n : Nat) : Str := natDigitsAux n n []

/-- Two-digit zero-padded rendering, as in the HH and mm fields of date-fns
format with pattern HH:mm and of toLocaleTimeString with 2-digit fields. -/
def pad2 (n : Nat) : Str :=
  if n < 10 then digitChar 0 :: natDigits n else natDigits n

/-- Day-of-week (0 = Sunday .. 6 = Saturday) of an epoch day number, the value
JavaScript Date.prototype.getDay returns for a Date on that local calendar
day. Epoch day 0 (1970-01-01) was a Thursday, hence the offset 4. -/
def dayOfWeekNum (t : Int) : Int := (t + 4) % 7

/-- Civil (year, month 1..12, day-of-month) view of an epoch day number, the
proleptic-Gregorian conversion a JavaScript Date performs when its year, month
and date components are read. Standard days-to-civil algorithm. -/
def civilFromDays (z0 : Int) : Int × Int × Int :=
  let z := z0 + 719468
  let era := z.fdiv 146097
  let doe := z - era * 146097
  let yoe := (doe - doe.fdiv 1460 + doe.fdiv 36524 - doe.fdiv 146096).fdiv 365
  let y := yoe + era * 400
  let doy := doe - (365 * yoe + yoe.fdiv 4 - yoe.fdiv 100)
  let mp := (5 * doy + 2).fdiv 153
  let d := doy - (153 * mp + 2).fdiv 5 + 1
  let m := mp + (if mp < 10 then 3 else -9)
  (y + (if m ≤ 2 then 1 else 0), m, d)

/-- Year component of the civil view of an epoch day number. -/
def civilYear (t : Int) : Int := (civilFromDays t).1

/-- Month component (1..12) of the civil view of an epoch day number. -/
def civilMonth (t : Int) : Int := (civilFromDays t).2.1

/-- Day-of-month component (1..) of the civil view of an epoch day number. -/
def civilDay (t : Int) : Int := (civilFromDays t).2.2

/-- Gregorian leap-year test. -/
def isLeapYear (y : Int) : Bool :=
  (y % 4 == 0 && y % 100 != 0) || y % 400 == 0

/-- Number of days in a civil month; the month argument is 1..12 for every
value civilFromDays produces, and the catch-all arm keeps the function total. -/
def daysInMonth (y m : Int) : Int :=
  if m == 2 then (if isLeapYear y then 29 else 28)
  else if m == 4 || m == 6 || m == 9 || m == 11 then 30
  else 31

/-- date-fns startOfMonth at day granularity: the epoch day of the first of
the month containing t (setDate(1) on the Date). -/
def startOfMonth (t : Int) : Int := t - (civilDay t - 1)

/-- date-fns endOfMonth at day granularity: the epoch day of the last of the
month containing t. -/
def endOfMonth (t : Int) : Int :=
  startOfMonth t + daysInMonth (civilYear t) (civilMonth t) - 1

/-- date-fns startOfWeek with weekStartsOn 0: the Sunday on or before t. -/
def startOfWeek (t : Int) : Int := t - dayOfWeekNum t

/-- date-fns endOfWeek with weekStartsOn 0: the Saturday on or after t. -/
def endOfWeek (t : Int) : Int := t + (6 - dayOfWeekNum t)

/-- date-fns eachDayOfInterval at day granularity: every epoch day from s to e
inclusive, in ascending order (empty when e is before s; the source only ever
calls it with s at or before e). -/
def eachDayOfInterval (s e : Int) : List Int :=
  (List.range (e + 1 - s).toNat).map (fun i => s + Int.ofNat i)

/-- getMonthDays from src/lib/calendar.ts: the calendar grid for the month
containing the anchor day, from the Sunday on or before the first of the month
to the Saturday on or after its last day. -/
def getMonthDays (t : Int) : List Int :=
  eachDayOfInterval (startOfWeek (startOfMonth t)) (endOfWeek (endOfMonth t))

/-- Broken-down local instant, as read off a JavaScript Date in calendar.ts:
the local calendar day (as an epoch day number) plus local wall-clock hour and
minute. The date string stored in an event round-trips to this view. -/
structure Instant where
  day : Int
  hour : Nat
  minute : Nat
deriving DecidableEq, Repr

/-- CalendarEvent from src/lib/calendar.ts. The date field holds the instant
the ISO date string denotes; description and color are the optional fields. -/
structure CalendarEvent where
  id : Str
  title : Str
  date : Instant
  description : Option Str
  color : Option Str
deriving DecidableEq, Repr

/-- date-fns isSameDay on two instants reduced to their local calendar days:
two instants are the same day exactly when their civil dates agree, i.e. when
their epoch day numbers agree. -/
def isSameDay (a b : Int) : Bool := a == b

/-- filterEventsByDate from src/lib/calendar.ts: the events of the collection
whose date falls on the given local calendar day, in collection order. -/
def filterEventsByDate (events : List CalendarEvent) (day : Int) : List CalendarEvent :=
  events.filter (fun e => isSameDay e.date.day day)

/-- formatEventTime from src/lib/calendar.ts: date-fns format with pattern
HH:mm, a zero-padded 24-hour local time rendering. -/
def formatEventTime (d : Instant) : Str :=
  pad2 d.hour ++ (":".data) ++ pad2 d.minute

/-- date-fns format with pattern M月d日 (month and day-of-month, no padding)
applied to a local calendar day. -/
def formatMd (t : Int) : Str :=
  natDigits (civilMonth t).toNat ++ ("月".data) ++ natDigits (civilDay t).toNat ++ ("日".data)

/-- Abbreviated Japanese weekday names indexed by getDay value, as produced by
date-fns format pattern E under the ja locale. -/
def jaWeekdays : List Str :=
  [("日".data), ("月".data), ("火".data), ("水".data), ("木".data), ("金".data), ("土".data)]

/-- date-fns format with pattern M/d(E) under the ja locale. -/
def formatMdE (t : Int) : Str :=
  natDigits (civilMonth t).toNat ++ ("/".data) ++ natDigits (civilDay t).toNat ++
    ("(".data) ++ (jaWeekdays.getD (dayOfWeekNum t).toNat []) ++ (")".data)

/-- Optional description suffix of a chat event line in parseAIResponse. -/
def descSuffix : Option Str → Str
  | some d => (" - ".data) ++ d
  | none => []

/-- One event line of the rule-1 and rule-2 replies in parseAIResponse. -/
def eventLine (e : CalendarEvent) : Str :=
  ("📌 ".data) ++ formatEventTime e.date ++ (" ".data) ++ e.title ++ descSuffix e.description

/-- Lines joined with a newline, as Array.prototype.join with a newline. -/
def joinNl (lines : List Str) : Str := List.intercalate ("\n".data) lines

/-- Rule-1 reply of parseAIResponse: the today-schedule response. -/
def todayReply (events : List CalendarEvent) (now : Instant) : Str :=
  let todayStr := formatMd now.day
  let todayEvents := filterEventsByDate events now.day
  if 0 < todayEvents.length then
    todayStr ++ ("の予定は".data) ++ natDigits todayEvents.length ++ ("件です！\n\n".data) ++
      joinNl (todayEvents.map eventLine)
  else
    todayStr ++ ("の予定は特にありません 🎉\nのんびりできますね！".data)

/-- Rule-2 reply of parseAIResponse: the tomorrow-schedule response. -/
def tomorrowReply (events : List CalendarEvent) (now : Instant) : Str :=
  let tomorrow := now.day + 1
  let tomorrowStr := formatMd tomorrow
  let tomorrowEvents := filterEventsByDate events tomorrow
  if 0 < tomorrowEvents.length then
    tomorrowStr ++ ("の予定は".data) ++ natDigits tomorrowEvents.length ++ ("件です！\n\n".data) ++
      joinNl (tomorrowEvents.map eventLine)
  else
    tomorrowStr ++ ("の予定は特にありません 😊\nゆっくり休めますね！".data)

/-- Whitespace test used by the model of String.prototype.trim; the rule-3
reply only ever needs spaces, tabs and newlines trimmed. -/
def isTrimmable (c : Char) : Bool := (" \n\t\r".data).contains c

/-- Model of String.prototype.trim on the character list. -/
def trimB (s : Str) : Str :=
  ((s.dropWhile isTrimmable).reverse.dropWhile isTrimmable).reverse

/-- Accumulation step of the rule-3 week listing: running text and running
event count after one day of the week is processed. -/
def weekStep (events : List CalendarEvent) (acc : Str × Nat) (day : Int) : Str × Nat :=
  let dayEvents := filterEventsByDate events day
  if 0 < dayEvents.length then
    (acc.1 ++ ("【".data) ++ formatMdE day ++ ("】\n".data) ++
      (dayEvents.map (fun e =>
        ("  ・".data) ++ formatEventTime e.date ++ (" ".data) ++ e.title ++ ("\n".data))).flatten,
      acc.2 + dayEvents.length)
  else acc

/-- Rule-3 reply of parseAIResponse: the week-schedule response. -/
def weekReply (events : List CalendarEvent) (now : Instant) : Str :=
  let weekDays := eachDayOfInterval (startOfWeek now.day) (endOfWeek now.day)
  let r := weekDays.foldl (weekStep events) (("📅 今週の予定：\n\n".data), 0)
  if r.2 == 0 then ("今週の予定はありません！🎉 フリーな一週間ですね。".data)
  else trimB r.1

/-- Rule-4 reply of parseAIResponse: the fixed add-event instruction text. -/
def addEventReply : Str :=
  ("予定を追加しますね！📝\nカレンダーの「＋追加」ボタンから、日時と内容を入力してください。\n\n（ヒント：日付をクリックしてから「＋追加」を押すと、その日の予定として追加できます）".data)

/-- Rule-5 reply of parseAIResponse: greeting chosen by local hour plus a note
on today's event count. -/
def greetingReply (events : List CalendarEvent) (now : Instant) : Str :=
  let greeting :=
    if now.hour < 10 then ("おはようございます".data)
    else if 18 ≤ now.hour then ("こんばんは".data)
    else ("こんにちは".data)
  let todayEvents := filterEventsByDate events now.day
  if 0 < todayEvents.length then
    greeting ++ ("！😊\n今日は".data) ++ natDigits todayEvents.length ++
      ("件の予定がありますよ。「今日の予定」と聞いてみてください！".data)
  else
    greeting ++ ("！😊\n今日の予定は特にありません。何かお手伝いできることはありますか？".data)

/-- Rule-6 reply of parseAIResponse: the fixed acknowledgment. -/
def thanksReply : Str := ("どういたしまして！😄\nいつでもお気軽にどうぞ！".data)

/-- Rule-7 reply of parseAIResponse: the fixed help text. -/
def helpReply : Str :=
  ("📖 こんなことができます：\n\n💬 「今日の予定」→ 今日のスケジュールを確認\n💬 「明日の予定」→ 明日のスケジュールを確認\n💬 「今週の予定」→ 週間スケジュールを確認\n💬 「予定を追加」→ 追加方法をガイド\n\n📅 カレンダーの日付をクリックして詳細を確認できます！".data)

/-- Rule-8 reply of parseAIResponse: the default echo-and-suggest text. -/
def defaultReply (input : Str) : Str :=
  ("「".data) ++ input ++
    ("」について承知しました 👍\n\n予定の確認は「今日の予定」「明日の予定」「今週の予定」と話しかけてみてくださいね。\n使い方は「ヘルプ」と入力すると確認できます！".data)

/-- parseAIResponse from src/lib/calendar.ts. The source returns a record
whose only ever-populated field is the text (the optional action field is
never set on any return path), so the model returns the response text. Rules
are tried top to bottom and the first matching rule answers. -/
def parseAIResponse (input : Str) (events : List CalendarEvent) (now : Instant) : Str :=
  if containsB input ("今日の予定".data) || containsB input ("今日は何".data) then
    todayReply events now
  else if containsB input ("明日の予定".data) || containsB input ("明日は何".data) then
    tomorrowReply events now
  else if containsB input ("今週".data) || containsB input ("この週".data) then
    weekReply events now
  else if containsB input ("予定".data) &&
      (containsB input ("追加".data) || containsB input ("入れて".data) ||
        containsB input ("登録".data)) then
    addEventReply
  else if containsB input ("おはよう".data) || containsB input ("こんにちは".data) ||
      containsB input ("こんばんは".data) then
    greetingReply events now
  else if containsB input ("ありがとう".data) || containsB input ("助かる".data) then
    thanksReply
  else if containsB input ("使い方".data) || containsB input ("ヘルプ".data) ||
      containsB input ("何ができる".data) then
    helpReply
  else
    defaultReply input

/-- getDefaultEvents from src/lib/calendar.ts. The construction reads the
current date (time of day truncated away) and draws one fresh identifier from
crypto.randomUUID per event; the four identifiers drawn by the platform
generator are passed in explicitly, in the order the source draws them. -/
def getDefaultEvents (now : Instant) (u1 u2 u3 u4 : Str) : List CalendarEvent :=
  let today := now.day
  let tomorrow := today + 1
  let nextWeek := today + 5
  [ { id := u1, title := ("ランチミーティング".data),
      date := { day := today, hour := 12, minute := 0 },
      description := some ("佐藤さんと渋谷で".data), color := some ("blue".data) },
    { id := u2, title := ("ジム".data),
      date := { day := today, hour := 18, minute := 0 },
      description := some ("背中トレーニング".data), color := some ("green".data) },
    { id := u3, title := ("美容院".data),
      date := { day := tomorrow, hour := 11, minute := 0 },
      description := some ("11:00予約".data), color := some ("purple".data) },
    { id := u4, title := ("プロジェクト会議".data),
      date := { day := nextWeek, hour := 14, minute := 0 },
      description := some ("Zoom会議".data), color := some ("red".data) } ]

/-- Dynamic JSON value, the result type of the platform JSON.parse. -/
inductive Json where
  | null
  | bool (b : Bool)
  | num (n : Int)
  | str (s : Str)
  | arr (elems : List Json)
  | obj (fields : List (Str × Json))

/-- Runtime value loadEvents can return: either the raw JSON.parse result
(the source returns it unchecked, typed as CalendarEvent[] but with no shape
validation) or an actual event list built in the function itself (the empty
list on the server-side branch, or the seed defaults). -/
inductive LoadResult where
  | raw (value : Json)
  | events (evs : List CalendarEvent)

/-- loadEvents from src/lib/calendar.ts. hasWindow models the typeof window
check; stored models the localStorage read under the fixed key, where none
means the read itself threw (caught by the try block) and some none means the
key was absent (getItem returned null); parse models the platform JSON.parse,
none meaning it threw. An empty stored string is falsy and is not parsed. -/
def loadEvents (hasWindow : Bool) (stored : Option (Option Str))
    (parse : Str → Option Json) (now : Instant) (u1 u2 u3 u4 : Str) : LoadResult :=
  if hasWindow = false then .events []
  else
    match stored with
    | none => .events (getDefaultEvents now u1 u2 u3 u4)
    | some none => .events (getDefaultEvents now u1 u2 u3 u4)
    | some (some s) =>
      if s.isEmpty then .events (getDefaultEvents now u1 u2 u3 u4)
      else
        match parse s with
        | some j => .raw j
        | none => .events (getDefaultEvents now u1 u2 u3 u4)

/-- Kind of an armed reminder trigger in public/sw.js: the pre-event reminder
set 10 minutes before the event, or the alert at the event time itself. -/
inductive TriggerKind where
  | pre
  | atTime
deriving DecidableEq, Repr

/-- Event as the service worker sees it: the id, title and optional
description fields it reads, plus the epoch-millisecond instant that
new Date(event.date).getTime() yields for the date string. -/
structure SWEvent where
  id : Str
  title : Str
  description : Option Str
  time : Int
deriving DecidableEq, Repr

/-- One armed trigger of scheduleNotifications in public/sw.js: the absolute
fire instant and the payload of the notification it will show. -/
structure Trigger where
  eventId : Str
  kind : TriggerKind
  fire : Int
  title : Str
  body : Str
  tag : Str
deriving DecidableEq, Repr

/-- Milliseconds in 24 hours, the look-ahead window bound of sw.js. -/
def dayMs : Int := 24 * 60 * 60 * 1000

/-- Milliseconds in the 10-minute pre-event reminder lead of sw.js. -/
def reminderMs : Int := 10 * 60 * 1000

/-- toLocaleTimeString with 2-digit hour and minute applied to an
epoch-millisecond instant (local wall-clock milliseconds). -/
def formatHM (t : Int) : Str :=
  pad2 ((t.fdiv 3600000) % 24).toNat ++ (":".data) ++ pad2 ((t.fdiv 60000) % 60).toNat

/-- Optional description suffix of a notification body in sw.js: the
description on its own line when present. -/
def swDescSuffix : Option Str → Str
  | some d => ("\n".data) ++ d
  | none => []

/-- Triggers scheduleNotifications arms for one event at instant now: at most
one pre-event trigger (10 minutes before the event, when that instant is
strictly in the future and strictly less than 24 hours away) followed by at
most one at-time trigger under the same bound at the event time itself. -/
def triggersFor (now : Int) (ev : SWEvent) : List Trigger :=
  let eventTime := ev.time
  let notifyTime := eventTime - reminderMs
  let delay := notifyTime - now
  let pres :=
    if 0 < delay ∧ delay < dayMs then
      [ { eventId := ev.id, kind := .pre, fire := notifyTime,
          title := ("📅 まもなく予定があります".data),
          body := formatHM eventTime ++ (" ".data) ++ ev.title ++ swDescSuffix ev.description,
          tag := ("event-".data) ++ ev.id } ]
    else []
  let delayExact := eventTime - now
  let ats :=
    if 0 < delayExact ∧ delayExact < dayMs then
      [ { eventId := ev.id, kind := .atTime, fire := eventTime,
          title := ("⏰ 予定の時間です！".data),
          body := ev.title ++ swDescSuffix ev.description,
          tag := ("event-now-".data) ++ ev.id } ]
    else []
  pres ++ ats

/-- scheduleNotifications from public/sw.js, as the list of triggers armed for
the given event collection at instant now, in arming order. -/
def scheduleNotifications (events : List SWEvent) (now : Int) : List Trigger :=
  events.flatMap (triggersFor now)

/-- scheduleNotifications with the mutable scheduledTimeouts state made
explicit: the previously armed triggers are all cleared (the source cancels
every stored timeout and resets the array) and the new triggers are computed
from the event collection and the current instant alone. -/
def runSchedule (_old : List Trigger) (events : List SWEvent) (now : Int) : List Trigger :=
  scheduleNotifications events now

/-- The dedup tag scheduleNotifications assigns: a stable function of the
event id and the trigger kind. -/
def tagOf (id : Str) (k : TriggerKind) : Str :=
  match k with
  | .pre => ("event-".data) ++ id
  | .atTime => ("event-now-".data) ++ id

/-- Identity key of an armed trigger: the (eventId, kind) pair. -/
def pairOf (t : Trigger) : Str × TriggerKind := (t.eventId, t.kind)

/-- Title, date, description and color of an event: everything but the id. -/
def eraseId (e : CalendarEvent) : Str × Instant × Option Str × Option Str :=
  (e.title, e.date, e.description, e.color)

theorem containsB_nil_needle (l : Str) : containsB l [] = true := by
  cases l <;> simp [containsB, isPrefixB]

theorem isPrefixB_self_append (n post : Str) : isPrefixB n (n ++ post) = true := by
  induction n with
  | nil => rfl
  | cons a as ih => simp [isPrefixB, ih]

theorem containsB_cons_of (c : Char) {t n : Str} (h : containsB t n = true) :
    containsB (c :: t) n = true := by
  simp [containsB, h]

theorem containsB_mono_left (hd : Str) {t n : Str} (h : containsB t n = true) :
    containsB (hd ++ t) n = true := by
  induction hd with
  | nil => simpa using h
  | cons c cs ih => exact containsB_cons_of c ih

theorem containsB_self_append (n post : Str) : containsB (n ++ post) n = true := by
  cases n with
  | nil => simpa using containsB_nil_needle post
  | cons a as =>
    simp only [containsB, List.cons_append, Bool.or_eq_true]
    exact Or.inl (isPrefixB_self_append (a :: as) post)

theorem containsB_sandwich (pre n post : Str) : containsB (pre ++ (n ++ post)) n = true :=
  containsB_mono_left pre (containsB_self_append n post)

theorem digitChar_toNat_le {n : Nat} (h : n < 10) : (digitChar n).toNat ≤ 57 := by
  interval_cases n <;> decide

theorem natDigitsAux_head (fuel : Nat) :
    ∀ n acc, n ≤ fuel → ∃ c l, natDigitsAux fuel n acc = c :: l ∧ c.toNat ≤ 57 := by
  induction fuel with
  | zero =>
    intro n acc hn
    have hn0 : n = 0 := by omega
    subst hn0
    exact ⟨digitChar 0, acc, rfl, by decide⟩
  | succ fuel ih =>
    intro n acc hn
    by_cases h : n < 10
    · exact ⟨digitChar n, acc, by simp [natDigitsAux, h], digitChar_toNat_le h⟩
    · have hrec : n / 10 ≤ fuel := by
        have := Nat.div_lt_self (show 0 < n by omega) (show 1 < 10 by omega)
        omega
      obtain ⟨c, l, heq, hle⟩ := ih (n / 10) (digitChar (n % 10) :: acc) hrec
      exact ⟨c, l, by simp [natDigitsAux, h, heq], hle⟩

theorem natDigits_head (n : Nat) : ∃ c l, natDigits n = c :: l ∧ c.toNat ≤ 57 :=
  natDigitsAux_head n n [] (Nat.le_refl n)

theorem triggersFor_bounds (now : Int) (ev : SWEvent) :
    ∀ t ∈ triggersFor now ev, now < t.fire ∧ t.fire < now + dayMs := by
  intro t ht
  unfold triggersFor at ht
  simp only [List.mem_append] at ht
  rcases ht with h | h <;> split_ifs at h with hc <;> simp at h <;> subst h <;>
    simp [dayMs, reminderMs] at hc ⊢ <;> omega

/-- C1: after scheduleNotifications runs, every armed trigger fires strictly
after now and strictly less than 24 hours after now; moreover for any event
the pre-event trigger (at timestamp minus 10 minutes) is armed exactly when
that instant lies strictly inside the window, and likewise the at-time
trigger at the timestamp itself. -/
theorem scheduled_triggers_within_window (events : List SWEvent) (now : Int) :
    (∀ t ∈ scheduleNotifications events now,
      now < t.fire ∧ t.fire < now + 24 * 60 * 60 * 1000) ∧
    (∀ ev : SWEvent,
      ((∃ t ∈ triggersFor now ev, t.kind = TriggerKind.pre) ↔
        (now < ev.time - 10 * 60 * 1000 ∧ ev.time - 10 * 60 * 1000 < now + 24 * 60 * 60 * 1000)) ∧
      ((∃ t ∈ triggersFor now ev, t.kind = TriggerKind.atTime) ↔
        (now < ev.time ∧ ev.time < now + 24 * 60 * 60 * 1000))) := by
  constructor
  · intro t ht
    rw [scheduleNotifications, List.mem_flatMap] at ht
    obtain ⟨ev, _, htf⟩ := ht
    have h := triggersFor_bounds now ev t htf
    simpa [dayMs] using h
  · intro ev
    constructor <;>
      · simp only [triggersFor]
        split_ifs with h1 h2 <;>
          simp_all [dayMs, reminderMs] <;> omega

theorem scheduled_triggers_within_window_witness :
    ∃ t ∈ triggersFor 0
      { id := ("a".data), title := ("t".data), description := none, time := 3600000 },
      t.kind = TriggerKind.pre :=
  ((scheduled_triggers_within_window [] 0).2 _).1.mpr (by decide)

theorem tagOf_kinds_ne (id : Str) : tagOf id TriggerKind.pre ≠ tagOf id TriggerKind.atTime := by
  intro h
  have hl := congrArg List.length h
  have h6 : (("event-".data : Str)).length = 6 := rfl
  have h10 : (("event-now-".data : Str)).length = 10 := rfl
  simp only [tagOf, List.length_append, h6, h10] at hl
  omega

theorem triggersFor_shape (now : Int) (ev : SWEvent) :
    ∀ t ∈ triggersFor now ev,
      t.eventId = ev.id ∧ t.tag = tagOf ev.id t.kind ∧
      (t.kind = TriggerKind.pre →
        t.body = formatHM ev.time ++ (" ".data) ++ ev.title ++ swDescSuffix ev.description ∧
        t.fire = ev.time - reminderMs) ∧
      (t.kind = TriggerKind.atTime →
        t.body = ev.title ++ swDescSuffix ev.description ∧ t.fire = ev.time) := by
  intro t ht
  simp only [triggersFor, List.mem_append] at ht
  rcases ht with h | h <;> split_ifs at h with hc <;> simp at h <;> subst h <;>
    simp [tagOf]

/-- C4 counterexample: the claim that each of the two triggers emits a
notification whose body combines the event's formatted time and its title is
false at a concrete input — for an event one hour away, the at-time trigger's
notification body does not contain the formatted event time. -/
theorem at_time_body_lacks_time_cex :
    ¬ (∀ t ∈ scheduleNotifications
        [{ id := ("a".data), title := ("ジム".data), description := none, time := 3600000 }] 0,
        containsB t.body (formatHM 3600000) = true) := by decide

/-- C4 as amended: the pre-event trigger's notification body combines the
event's formatted time and its title, with the description on its own line
when present; the at-time trigger's body carries the title (with the
description on its own line when present) but not the formatted time; each
trigger's dedup tag is the stable function tagOf of the event id and the
trigger kind, and the tags of the two kinds are distinct for the same event. -/
theorem notification_payloads_amended (now : Int) (ev : SWEvent) :
    ∀ t ∈ triggersFor now ev,
      t.eventId = ev.id ∧ t.tag = tagOf ev.id t.kind ∧
      (t.kind = TriggerKind.pre →
        t.body = formatHM ev.time ++ (" ".data) ++ ev.title ++ swDescSuffix ev.description) ∧
      (t.kind = TriggerKind.atTime →
        t.body = ev.title ++ swDescSuffix ev.description) ∧
      tagOf ev.id TriggerKind.pre ≠ tagOf ev.id TriggerKind.atTime := by
  intro t ht
  obtain ⟨h1, h2, h3, h4⟩ := triggersFor_shape now ev t ht
  exact ⟨h1, h2, fun hk => (h3 hk).1, fun hk => (h4 hk).1, tagOf_kinds_ne ev.id⟩

theorem notification_payloads_amended_witness :
    ({ eventId := ("a".data), kind := TriggerKind.atTime, fire := 3600000,
       title := ("⏰ 予定の時間です！".data), body := ("ジム".data),
       tag := ("event-now-a".data) } : Trigger).body =
      ("ジム".data) ++ swDescSuffix none :=
  ((notification_payloads_amended 0
    { id := ("a".data), title := ("ジム".data), description := none, time := 3600000 }
    _ (by decide)).2.2.2.1 rfl)

/-- C9 counterexample: getDefaultEvents is not a pure function of the current
date — the identifiers come from the platform random-UUID generator, so two
invocations at the same current date that draw different identifiers produce
different output. -/
theorem getDefaultEvents_not_id_deterministic_cex :
    getDefaultEvents { day := 0, hour := 0, minute := 0 }
        ("a".data) ("b".data) ("c".data) ("d".data) ≠
      getDefaultEvents { day := 0, hour := 0, minute := 0 }
        ("x".data) ("b".data) ("c".data) ("d".data) := by decide

/-- C9 as amended: getDefaultEvents is deterministic apart from the event
identifiers — two invocations at the same current date agree on every field
except the ids, which are exactly the four identifiers freshly drawn from the
platform generator; the titles, dates, descriptions and colors are a pure
function of the current date, and the seed set always has exactly 4 events. -/
theorem getDefaultEvents_deterministic_mod_ids
    (now : Instant) (u1 u2 u3 u4 v1 v2 v3 v4 : Str) :
    (getDefaultEvents now u1 u2 u3 u4).map eraseId =
      (getDefaultEvents now v1 v2 v3 v4).map eraseId ∧
    (getDefaultEvents now u1 u2 u3 u4).map (fun e => e.id) = [u1, u2, u3, u4] ∧
    (getDefaultEvents now u1 u2 u3 u4).length = 4 :=
  ⟨rfl, rfl, rfl⟩

theorem triggersFor_mem_id (now : Int) (ev : SWEvent) {t : Trigger}
    (ht : t ∈ triggersFor now ev) : t.eventId = ev.id :=
  (triggersFor_shape now ev t ht).1

theorem sched_mem_id {events : List SWEvent} {now : Int} {t : Trigger}
    (ht : t ∈ scheduleNotifications events now) : t.eventId ∈ events.map (fun e => e.id) := by
  rw [scheduleNotifications, List.mem_flatMap] at ht
  obtain ⟨ev, hev, htf⟩ := ht
  exact List.mem_map.2 ⟨ev, hev, (triggersFor_mem_id now ev htf).symm⟩

theorem triggersFor_pairs_nodup (now : Int) (ev : SWEvent) :
    ((triggersFor now ev).map pairOf).Nodup := by
  simp only [triggersFor]
  split_ifs <;> simp [pairOf]

theorem sched_mem_tag {events : List SWEvent} {now : Int} {t : Trigger}
    (ht : t ∈ scheduleNotifications events now) : t.tag = tagOf t.eventId t.kind := by
  rw [scheduleNotifications, List.mem_flatMap] at ht
  obtain ⟨ev, _, htf⟩ := ht
  have h := triggersFor_shape now ev t htf
  rw [h.2.1, h.1]

theorem sched_pairs_nodup (events : List SWEvent) (now : Int)
    (h : (events.map (fun e => e.id)).Nodup) :
    ((scheduleNotifications events now).map pairOf).Nodup := by
  induction events with
  | nil => simp [scheduleNotifications]
  | cons ev evs ih =>
    simp only [List.map_cons, List.nodup_cons] at h
    have hstep : scheduleNotifications (ev :: evs) now =
        triggersFor now ev ++ scheduleNotifications evs now := by
      simp [scheduleNotifications]
    rw [hstep, List.map_append, List.nodup_append]
    refine ⟨triggersFor_pairs_nodup now ev, ih h.2, ?_⟩
    intro p hp1 hp2
    obtain ⟨t1, ht1, hpt1⟩ := List.mem_map.1 hp1
    obtain ⟨t2, ht2, hpt2⟩ := List.mem_map.1 hp2
    have hid1 : t1.eventId = ev.id := triggersFor_mem_id now ev ht1
    have hid2 : t2.eventId ∈ evs.map (fun e => e.id) := sched_mem_id ht2
    have : t1.eventId = t2.eventId := by
      rw [← hpt2] at hpt1
      exact congrArg Prod.fst hpt1
    exact h.1 (by rw [← hid1, this]; exact hid2)

/-- C5: re-arming is a full clear-and-recompute and is idempotent — the
armed-trigger state produced by scheduleNotifications does not depend on the
previously armed triggers, a second run with the same events at the same
instant reproduces it exactly, every trigger's dedup tag is the stable
function tagOf of its (eventId, kind) pair, and when event ids are unique the
armed (eventId, kind) pairs contain no duplicates. -/
theorem scheduleAll_rearm_idempotent (old1 old2 : List Trigger)
    (events : List SWEvent) (now : Int)
    (h : (events.map (fun e => e.id)).Nodup) :
    runSchedule old1 events now = runSchedule old2 events now ∧
    runSchedule (runSchedule old1 events now) events now = runSchedule old1 events now ∧
    ((runSchedule old1 events now).map pairOf).Nodup ∧
    (∀ t ∈ runSchedule old1 events now, t.tag = tagOf t.eventId t.kind) :=
  ⟨rfl, rfl, sched_pairs_nodup events now h, fun _ ht => sched_mem_tag ht⟩

theorem scheduleAll_rearm_idempotent_witness :
    runSchedule []
        [{ id := ("a".data), title := ("t".data), description := none, time := 3600000 }] 0 =
      runSchedule
        [{ eventId := ("z".data), kind := TriggerKind.pre, fire := 1,
           title := [], body := [], tag := [] }]
        [{ id := ("a".data), title := ("t".data), description := none, time := 3600000 }] 0 :=
  (scheduleAll_rearm_idempotent _ _ _ 0 (by decide)).1

/-- C6: loadEvents never fails — whenever the persisted value is missing
(getItem null), the read throws, the stored string is empty, or JSON.parse
throws on it, the function returns the seed set built by getDefaultEvents,
which has exactly 4 example events. -/
theorem loadEvents_falls_back_to_seed (hasWindow : Bool) (stored : Option (Option Str))
    (parse : Str → Option Json) (now : Instant) (u1 u2 u3 u4 : Str)
    (hw : hasWindow = true)
    (hbad : stored = none ∨ stored = some none ∨
      ∃ s, stored = some (some s) ∧ (s.isEmpty = true ∨ parse s = none)) :
    loadEvents hasWindow stored parse now u1 u2 u3 u4 =
      LoadResult.events (getDefaultEvents now u1 u2 u3 u4) ∧
    (getDefaultEvents now u1 u2 u3 u4).length = 4 := by
  subst hw
  refine ⟨?_, rfl⟩
  rcases hbad with h | h | ⟨s, hs, h2⟩
  · subst h; simp [loadEvents]
  · subst h; simp [loadEvents]
  · subst hs
    rcases h2 with he | hp
    · simp [loadEvents, he]
    · rcases hie : s.isEmpty <;> simp [loadEvents, hie, hp]

theorem loadEvents_falls_back_to_seed_witness :
    loadEvents true (some none) (fun _ => none)
        { day := 0, hour := 0, minute := 0 } ("a".data) ("b".data) ("c".data) ("d".data) =
      LoadResult.events (getDefaultEvents { day := 0, hour := 0, minute := 0 }
        ("a".data) ("b".data) ("c".data) ("d".data)) ∧
    (getDefaultEvents { day := 0, hour := 0, minute := 0 }
      ("a".data) ("b".data) ("c".data) ("d".data)).length = 4 :=
  loadEvents_falls_back_to_seed true (some none) (fun _ => none) _ _ _ _ _
    rfl (Or.inr (Or.inl rfl))

/-- C10: when the stored value is present, non-empty and parses as JSON, the
parse result is returned verbatim as the event collection — no shape
validation happens, so even JSON that is not an array of event records (a
bare number, say) is returned rather than replaced by the seed defaults. -/
theorem loadEvents_returns_parsed_verbatim (stored : Option (Option Str))
    (parse : Str → Option Json) (now : Instant) (u1 u2 u3 u4 : Str) (s : Str) (j : Json)
    (hs : stored = some (some s)) (hne : s.isEmpty = false) (hp : parse s = some j) :
    loadEvents true stored parse now u1 u2 u3 u4 = LoadResult.raw j ∧
    ∀ evs : List CalendarEvent,
      loadEvents true stored parse now u1 u2 u3 u4 ≠ LoadResult.events evs := by
  subst hs
  have hmain : loadEvents true (some (some s)) parse now u1 u2 u3 u4 = LoadResult.raw j := by
    simp [loadEvents, hne, hp]
  exact ⟨hmain, fun evs hcontra => by rw [hmain] at hcontra; exact LoadResult.noConfusion hcontra⟩

theorem loadEvents_returns_parsed_verbatim_witness :
    loadEvents true (some (some ("5".data)))
        (fun x => if x = ("5".data) then some (Json.num 5) else none)
        { day := 0, hour := 0, minute := 0 } [] [] [] [] =
      LoadResult.raw (Json.num 5) :=
  (loadEvents_returns_parsed_verbatim _ _ _ [] [] [] [] ("5".data) (Json.num 5)
    rfl rfl rfl).1

theorem helpReply_head_val : helpReply.head?.map Char.toNat = some 128214 := by decide

theorem todayReply_head_digit (events : List CalendarEvent) (now : Instant) :
    ∃ c, (todayReply events now).head? = some c ∧ c.toNat ≤ 57 := by
  obtain ⟨c, l, heq, hle⟩ := natDigits_head (civilMonth now.day).toNat
  refine ⟨c, ?_, hle⟩
  simp only [todayReply, formatMd, heq]
  split <;> simp

theorem todayReply_ne_help (events : List CalendarEvent) (now : Instant) :
    todayReply events now ≠ helpReply := by
  intro h
  obtain ⟨c, hc, hle⟩ := todayReply_head_digit events now
  rw [h] at hc
  have hv := helpReply_head_val
  rw [hc] at hv
  simp at hv
  omega

/-- C2: rule evaluation is first-match-wins in the fixed order — an input
containing a rule-1 trigger phrase resolves to the rule-1 today-schedule
response, so an input also containing a rule-7 help trigger phrase still
yields the rule-1 response, and that response is never the help response. -/
theorem today_rule_precedes_help (input : Str) (events : List CalendarEvent) (now : Instant)
    (h1 : containsB input ("今日の予定".data) = true ∨ containsB input ("今日は何".data) = true)
    (_h7 : containsB input ("使い方".data) = true ∨ containsB input ("ヘルプ".data) = true ∨
      containsB input ("何ができる".data) = true) :
    parseAIResponse input events now = todayReply events now ∧
    parseAIResponse input events now ≠ helpReply := by
  have hcond : (containsB input ("今日の予定".data) || containsB input ("今日は何".data)) = true := by
    rcases h1 with h | h <;> simp [h]
  have heq : parseAIResponse input events now = todayReply events now := by
    simp [parseAIResponse, hcond]
  exact ⟨heq, heq ▸ todayReply_ne_help events now⟩

theorem today_rule_precedes_help_witness :
    parseAIResponse ("今日の予定とヘルプ".data) [] { day := 0, hour := 0, minute := 0 } =
      todayReply [] { day := 0, hour := 0, minute := 0 } ∧
    parseAIResponse ("今日の予定とヘルプ".data) [] { day := 0, hour := 0, minute := 0 } ≠
      helpReply :=
  today_rule_precedes_help _ _ _ (Or.inl (by decide)) (Or.inr (Or.inl (by decide)))

/-- C3: for any input matching rule 1, the today listing is built from
filterEventsByDate of the collection at today's date: when that list is
non-empty the response is the header naming its exact length followed by one
formatted line per event (time, title, and description after a separator when
present) in collection order; when it is empty the response is the fixed
no-events-today message. -/
theorem today_schedule_response_contents (input : Str) (events : List CalendarEvent)
    (now : Instant)
    (h1 : containsB input ("今日の予定".data) = true ∨ containsB input ("今日は何".data) = true) :
    filterEventsByDate events now.day = events.filter (fun e => isSameDay e.date.day now.day) ∧
    List.Sublist (filterEventsByDate events now.day) events ∧
    (0 < (filterEventsByDate events now.day).length →
      parseAIResponse input events now =
        formatMd now.day ++ ("の予定は".data) ++
          natDigits (filterEventsByDate events now.day).length ++ ("件です！\n\n".data) ++
          joinNl ((filterEventsByDate events now.day).map eventLine) ∧
      ((filterEventsByDate events now.day).map eventLine).length =
        (filterEventsByDate events now.day).length) ∧
    ((filterEventsByDate events now.day).length = 0 →
      parseAIResponse input events now =
        formatMd now.day ++ ("の予定は特にありません 🎉\nのんびりできますね！".data)) := by
  have hcond : (containsB input ("今日の予定".data) || containsB input ("今日は何".data)) = true := by
    rcases h1 with h | h <;> simp [h]
  have heq : parseAIResponse input events now = todayReply events now := by
    simp [parseAIResponse, hcond]
  refine ⟨rfl, List.filter_sublist _, ?_, ?_⟩
  · intro hpos
    constructor
    · rw [heq]
      simp only [todayReply]
      rw [if_pos hpos]
    · exact List.length_map _ _
  · intro hzero
    rw [heq]
    simp only [todayReply]
    rw [if_neg (by omega)]

theorem today_schedule_response_contents_witness :
    ((filterEventsByDate
        [{ id := ("e".data), title := ("T".data), date := { day := 0, hour := 12, minute := 0 },
           description := none, color := none }] ((0 : Int))).map eventLine).length =
      (filterEventsByDate
        [{ id := ("e".data), title := ("T".data), date := { day := 0, hour := 12, minute := 0 },
           description := none, color := none }] ((0 : Int))).length :=
  ((today_schedule_response_contents ("今日の予定".data)
      [{ id := ("e".data), title := ("T".data), date := { day := 0, hour := 12, minute := 0 },
         description := none, color := none }]
      { day := 0, hour := 9, minute := 0 } (Or.inl (by decide))).2.2.1 (by decide)).2

theorem defaultReply_echo (input : Str) : containsB (defaultReply input) input = true :=
  containsB_sandwich ("「".data) input
    ("」について承知しました 👍\n\n予定の確認は「今日の予定」「明日の予定」「今週の予定」と話しかけてみてくださいね。\n使い方は「ヘルプ」と入力すると確認できます！".data)

theorem defaultReply_tail_mention (input ph : Str)
    (h : containsB
      ("」について承知しました 👍\n\n予定の確認は「今日の予定」「明日の予定」「今週の予定」と話しかけてみてくださいね。\n使い方は「ヘルプ」と入力すると確認できます！".data)
      ph = true) :
    containsB (defaultReply input) ph = true :=
  containsB_mono_left ("「".data) (containsB_mono_left input h)

/-- C8: the matcher is total by construction and any input matching none of
the seven keyword rules is answered by the default rule, whose response text
echoes the input back in Japanese quotation marks and then suggests the three
query phrases and the help phrase. -/
theorem matcher_default_branch (input : Str) (events : List CalendarEvent) (now : Instant)
    (h1 : (containsB input ("今日の予定".data) || containsB input ("今日は何".data)) = false)
    (h2 : (containsB input ("明日の予定".data) || containsB input ("明日は何".data)) = false)
    (h3 : (containsB input ("今週".data) || containsB input ("この週".data)) = false)
    (h4 : (containsB input ("予定".data) &&
      (containsB input ("追加".data) || containsB input ("入れて".data) ||
        containsB input ("登録".data))) = false)
    (h5 : (containsB input ("おはよう".data) || containsB input ("こんにちは".data) ||
      containsB input ("こんばんは".data)) = false)
    (h6 : (containsB input ("ありがとう".data) || containsB input ("助かる".data)) = false)
    (h7 : (containsB input ("使い方".data) || containsB input ("ヘルプ".data) ||
      containsB input ("何ができる".data)) = false) :
    parseAIResponse input events now = defaultReply input ∧
    containsB (parseAIResponse input events now) input = true ∧
    containsB (parseAIResponse input events now) ("今日の予定".data) = true ∧
    containsB (parseAIResponse input events now) ("明日の予定".data) = true ∧
    containsB (parseAIResponse input events now) ("今週の予定".data) = true ∧
    containsB (parseAIResponse input events now) ("ヘルプ".data) = true := by
  have heq : parseAIResponse input events now = defaultReply input := by
    simp [parseAIResponse, h1, h2, h3, h4, h5, h6, h7]
  rw [heq]
  exact ⟨rfl, defaultReply_echo input,
    defaultReply_tail_mention _ _ (by decide), defaultReply_tail_mention _ _ (by decide),
    defaultReply_tail_mention _ _ (by decide), defaultReply_tail_mention _ _ (by decide)⟩

theorem matcher_default_branch_witness :
    parseAIResponse ("abc".data) [] { day := 0, hour := 0, minute := 0 } =
      defaultReply ("abc".data) ∧
    containsB (parseAIResponse ("abc".data) [] { day := 0, hour := 0, minute := 0 })
      ("abc".data) = true ∧
    containsB (parseAIResponse ("abc".data) [] { day := 0, hour := 0, minute := 0 })
      ("今日の予定".data) = true ∧
    containsB (parseAIResponse ("abc".data) [] { day := 0, hour := 0, minute := 0 })
      ("明日の予定".data) = true ∧
    containsB (parseAIResponse ("abc".data) [] { day := 0, hour := 0, minute := 0 })
      ("今週の予定".data) = true ∧
    containsB (parseAIResponse ("abc".data) [] { day := 0, hour := 0, minute := 0 })
      ("ヘルプ".data) = true :=
  matcher_default_branch _ _ _ (by decide) (by decide) (by decide) (by decide)
    (by decide) (by decide) (by decide)

theorem daysInMonth_pos (y m : Int) : 1 ≤ daysInMonth y m := by
  unfold daysInMonth
  split_ifs <;> omega

theorem eachDay_length (s e : Int) : (eachDayOfInterval s e).length = (e + 1 - s).toNat := by
  unfold eachDayOfInterval
  rw [List.length_map, List.length_range]

theorem eachDay_getElem (s e : Int) (i : Nat) (h : i < (e + 1 - s).toNat) :
    (eachDayOfInterval s e)[i]? = some (s + (i : Int)) := by
  unfold eachDayOfInterval
  rw [List.getElem?_map, List.getElem?_range h]
  rfl

theorem eachDay_mem (s e x : Int) : x ∈ eachDayOfInterval s e ↔ (s ≤ x ∧ x ≤ e) := by
  simp only [eachDayOfInterval, List.mem_map, List.mem_range, Int.ofNat_eq_coe]
  constructor
  · rintro ⟨i, hi, rfl⟩
    omega
  · intro ⟨h1, h2⟩
    exact ⟨(x - s).toNat, by omega, by omega⟩

/-- C7: getMonthDays returns the ascending run of consecutive days from the
Sunday on or before the first of the anchor's month to the Saturday on or
after its last day: its length is a positive multiple of 7, the i-th entry is
the start day plus i, membership is exactly the closed interval between those
two bounds, the first entry is a Sunday at most 6 days before the first of
the month, the last bound is a Saturday at most 6 days after the last of the
month, and every day of the anchor's month is in the grid. -/
theorem getMonthDays_grid (t : Int) :
    (getMonthDays t).length % 7 = 0 ∧
    0 < (getMonthDays t).length ∧
    (∀ i : Nat, i < (getMonthDays t).length →
      (getMonthDays t)[i]? = some (startOfWeek (startOfMonth t) + (i : Int))) ∧
    (∀ x : Int, x ∈ getMonthDays t ↔
      (startOfWeek (startOfMonth t) ≤ x ∧ x ≤ endOfWeek (endOfMonth t))) ∧
    dayOfWeekNum (startOfWeek (startOfMonth t)) = 0 ∧
    startOfMonth t - 7 < startOfWeek (startOfMonth t) ∧
    startOfWeek (startOfMonth t) ≤ startOfMonth t ∧
    dayOfWeekNum (endOfWeek (endOfMonth t)) = 6 ∧
    endOfMonth t ≤ endOfWeek (endOfMonth t) ∧
    endOfWeek (endOfMonth t) < endOfMonth t + 7 ∧
    startOfMonth t ≤ endOfMonth t ∧
    (∀ x : Int, startOfMonth t ≤ x → x ≤ endOfMonth t → x ∈ getMonthDays t) := by
  have hdim : 1 ≤ daysInMonth (civilYear t) (civilMonth t) := daysInMonth_pos _ _
  have heom : endOfMonth t = startOfMonth t + daysInMonth (civilYear t) (civilMonth t) - 1 := rfl
  have hsw : ∀ u : Int, startOfWeek u = u - (u + 4) % 7 := fun _ => rfl
  have hew : ∀ u : Int, endOfWeek u = u + (6 - (u + 4) % 7) := fun _ => rfl
  have hdw : ∀ u : Int, dayOfWeekNum u = (u + 4) % 7 := fun _ => rfl
  have hlen : (getMonthDays t).length =
      (endOfWeek (endOfMonth t) + 1 - startOfWeek (startOfMonth t)).toNat :=
    eachDay_length _ _
  refine ⟨?_, ?_, ?_, ?_, ?_, ?_, ?_, ?_, ?_, ?_, ?_, ?_⟩
  · simp only [hlen, hew, hsw, heom]
    omega
  · simp only [hlen, hew, hsw, heom]
    omega
  · intro i hi
    rw [hlen] at hi
    exact eachDay_getElem _ _ i hi
  · exact fun x => eachDay_mem (startOfWeek (startOfMonth t)) (endOfWeek (endOfMonth t)) x
  · simp only [hdw, hsw]
    omega
  · simp only [hsw]
    omega
  · simp only [hsw]
    omega
  · simp only [hdw, hew]
    omega
  · simp only [hew]
    omega
  · simp only [hew]
    omega
  · simp only [heom]
    omega
  · intro x hx1 hx2
    refine (eachDay_mem (startOfWeek (startOfMonth t)) (endOfWeek (endOfMonth t)) x).2 ⟨?_, ?_⟩
    · simp only [hsw]
      omega
    · simp only [hew, heom] at hx2 ⊢
      omega

theorem getMonthDays_grid_witness : (0 : Int) ∈ getMonthDays 0 :=
  (getMonthDays_grid 0).2.2.2.2.2.2.2.2.2.2.2 0 (by decide) (by decide)

end ScheduleNotify
